import Mathlib

/-!
Verification development for the Top_Tier_Trading risk control plane.

Part I embeds the two TypeScript `parsePrometheusMetrics` functions
(`src/ops-ui/pages/api/metrics.ts` and the SSE router half of
`src/unnamed/part_010`) over a model of the JavaScript string primitives
they use (`split`, `startsWith`, `parseFloat`, the exposure regular
expression).  A JavaScript number is modelled as `Option JsVal`, with
`none` standing for `NaN` and `JsVal` an exact decimal
(mantissa × 10^exponent), so every parser run is computable by `decide`.

Part II models the components of the risk core (Pre-Trade Gate, Risk State
Store, Post-Trade Reconciler, Volatility Estimator, Alert Coordinator) from
the specification, since their implementation files are not part of the
published source tree.
-/

/-- Exact decimal value of a JavaScript float literal:
`mant * 10 ^ exp10`. -/
structure JsVal where
  mant : ℤ
  exp10 : ℤ
deriving DecidableEq, Repr

/-- Model of a JavaScript number: `none` stands for `NaN` (and other
non-finite results). -/
abbrev JsNum := Option JsVal

/-- Numeric equality of two exact decimals (align exponents, compare
mantissas). -/
def jsValEq (a b : JsVal) : Bool :=
  let d := min a.exp10 b.exp10
  a.mant * 10 ^ (a.exp10 - d).toNat == b.mant * 10 ^ (b.exp10 - d).toNat

/-- JavaScript strict numeric equality `===` on numbers: `NaN` compares
false to everything. -/
def jsEq (a b : JsNum) : Bool :=
  match a, b with
  | some x, some y => jsValEq x y
  | _, _ => false

/-- The JavaScript number literal `1`. -/
def jsOne : JsVal := ⟨1, 0⟩

/-- Whitespace recognised by `parseFloat` when skipping a leading run. -/
def jsIsWs (c : Char) : Bool :=
  c == ' ' || c == '\t' || c == '\n' || c == '\r'

/-- Split a character list at every occurrence of the separator, keeping
empty segments, exactly as JavaScript `String.prototype.split` with a
single-character separator does (splitting the empty string yields `[[]]`). -/
def splitChar (sep : Char) : List Char → List (List Char)
  | [] => [[]]
  | c :: cs =>
    if c == sep then [] :: splitChar sep cs
    else
      match splitChar sep cs with
      | [] => [[c]]
      | h :: t => (c :: h) :: t

/-- Model of JavaScript `line.startsWith(p)` on a character-list line. -/
def jsStartsWith (p : String) (l : List Char) : Bool :=
  p.toList.isPrefixOf l

/-- Numeric value of a decimal digit character, `none` otherwise. -/
def digitVal (c : Char) : Option ℕ :=
  if c.isDigit then some (c.toNat - 48) else none

/-- Take the longest run of decimal digits from the front of a list,
returning their values and the remainder. -/
def takeDigits : List Char → List ℕ × List Char
  | [] => ([], [])
  | c :: cs =>
    match digitVal c with
    | some d =>
      let (ds, rest) := takeDigits cs
      (d :: ds, rest)
    | none => ([], c :: cs)

/-- The natural number denoted by a list of digit values (most significant
first). -/
def natOfDigits (ds : List ℕ) : ℕ :=
  ds.foldl (fun a d => 10 * a + d) 0

/-- Parse an optional exponent part (`e`/`E`, optional sign, digits).  If no
digit follows, the exponent contributes zero, matching `parseFloat`, which
then simply does not consume the exponent marker. -/
def parseExponent : List Char → ℤ
  | 'e' :: rest => parseExponentTail rest
  | 'E' :: rest => parseExponentTail rest
  | _ => 0
where
  /-- Sign and digits of an exponent; zero when no digits are present. -/
  parseExponentTail : List Char → ℤ
    | '+' :: rest => (natOfDigits (takeDigits rest).1 : ℤ)
    | '-' :: rest => -(natOfDigits (takeDigits rest).1 : ℤ)
    | rest => (natOfDigits (takeDigits rest).1 : ℤ)

/-- Mantissa and exponent of a JavaScript float literal after the sign:
digits, optional point with more digits, optional exponent.  Returns `none`
(`NaN`) when not a single digit is present before or after the point. -/
def parseMantissa (cs : List Char) (sign : ℤ) : JsNum :=
  let (d1, r1) := takeDigits cs
  let (d2, r2) :=
    match r1 with
    | '.' :: r => takeDigits r
    | _ => ([], r1)
  if d1.isEmpty && d2.isEmpty then none
  else some ⟨sign * (natOfDigits (d1 ++ d2) : ℤ), parseExponent r2 - d2.length⟩

/-- Model of JavaScript `parseFloat` on a character list: skip leading
whitespace, optional sign, then the longest decimal/exponent literal
prefix; `NaN` (here `none`) when no digits are found.  (`Infinity` inputs,
which never compare equal to 1, are folded into `none` as non-finite.) -/
def jsParseFloat (cs : List Char) : JsNum :=
  match cs.dropWhile jsIsWs with
  | '+' :: rest => parseMantissa rest 1
  | '-' :: rest => parseMantissa rest (-1)
  | rest => parseMantissa rest 1

/-- Characters admitted by the second capture group `[0-9eE+\-.]` of the
exposure regular expression. -/
def expNumChar (c : Char) : Bool :=
  c.isDigit || c == 'e' || c == 'E' || c == '+' || c == '-' || c == '.'

/-- Consume an exact literal from the front of a list. -/
def dropLiteral : List Char → List Char → Option (List Char)
  | [], cs => some cs
  | _ :: _, [] => none
  | p :: ps, c :: cs => if p == c then dropLiteral ps cs else none

/-- Attempt the exposure regular expression
`atlas_exposure\x7bproduct="([^"]+)"\x7d ([0-9eE+\-.]+)` at the current
position: the literal head, a nonempty run of non-quote characters
(group 1), the literal `"\x7d `, and a nonempty run of number characters
(group 2).  Both runs are greedy and, given the following literals, the
match at a fixed position is deterministic. -/
def tryExposureMatchAt (cs : List Char) : Option (List Char × List Char) :=
  match dropLiteral ("atlas_exposure\x7bproduct=\"").toList cs with
  | none => none
  | some r1 =>
    let g1 := r1.takeWhile (fun c => c != '"')
    let r2 := r1.dropWhile (fun c => c != '"')
    if g1.isEmpty then none
    else
      match r2 with
      | '"' :: '\x7d' :: ' ' :: r3 =>
        let g2 := r3.takeWhile expNumChar
        if g2.isEmpty then none else some (g1, g2)
      | _ => none

/-- Model of `line.match(re)` for the exposure regular expression: the
leftmost match, returning the two capture groups.  The regular-expression
literals in `api/metrics.ts` and in the SSE router are character-for-character
the same pattern (modulo redundant escapes), so a single model serves both. -/
def atlasExposureMatch : List Char → Option (List Char × List Char)
  | [] => tryExposureMatchAt []
  | c :: cs =>
    match tryExposureMatchAt (c :: cs) with
    | some m => some m
    | none => atlasExposureMatch cs

/-- JavaScript object update `m[k] = v`: replace in place when the key
exists, append otherwise. -/
def recordSet (m : List (String × JsNum)) (k : String) (v : JsNum) :
    List (String × JsNum) :=
  match m with
  | [] => [(k, v)]
  | (k', v') :: t => if k' == k then (k, v) :: t else (k', v') :: recordSet t k v

/-- Result shape of `parsePrometheusMetrics` in `ops-ui/pages/api/metrics.ts`. -/
structure ApiMetrics where
  open_orders : JsNum
  kill_switch : Bool
  exposures : List (String × JsNum)
deriving DecidableEq, Repr

/-- Result shape of `parsePrometheusMetrics` in the SSE router. -/
structure SseMetrics where
  open_orders : JsNum
  kill_switch : Bool
  exposures : List (String × JsNum)
  daily_pnl : JsNum
  account_balance : JsNum
deriving DecidableEq, Repr

/-- One loop iteration of the Ops-UI metrics parser over a single line. -/
def apiStep (m : ApiMetrics) (line : List Char) : ApiMetrics :=
  if jsStartsWith "atlas_open_orders" line then
    match splitChar ' ' line with
    | _ :: p1 :: _ => { m with open_orders := jsParseFloat p1 }
    | _ => m
  else if jsStartsWith "atlas_kill_switch" line then
    match splitChar ' ' line with
    | _ :: p1 :: _ => { m with kill_switch := jsEq (jsParseFloat p1) (some jsOne) }
    | _ => m
  else if jsStartsWith "atlas_exposure" line then
    match atlasExposureMatch line with
    | some (g1, g2) =>
      { m with exposures := recordSet m.exposures (String.mk g1) (jsParseFloat g2) }
    | none => m
  else m

/-- One loop iteration of the SSE-router metrics parser over a single line. -/
def sseStep (m : SseMetrics) (line : List Char) : SseMetrics :=
  if jsStartsWith "atlas_open_orders" line then
    match splitChar ' ' line with
    | _ :: p1 :: _ => { m with open_orders := jsParseFloat p1 }
    | _ => m
  else if jsStartsWith "atlas_kill_switch" line then
    match splitChar ' ' line with
    | _ :: p1 :: _ => { m with kill_switch := jsEq (jsParseFloat p1) (some jsOne) }
    | _ => m
  else if jsStartsWith "atlas_exposure" line then
    match atlasExposureMatch line with
    | some (g1, g2) =>
      { m with exposures := recordSet m.exposures (String.mk g1) (jsParseFloat g2) }
    | none => m
  else if jsStartsWith "atlas_daily_pnl" line then
    match splitChar ' ' line with
    | _ :: p1 :: _ => { m with daily_pnl := jsParseFloat p1 }
    | _ => m
  else if jsStartsWith "atlas_account_balance" line then
    match splitChar ' ' line with
    | _ :: p1 :: _ => { m with account_balance := jsParseFloat p1 }
    | _ => m
  else m

/-- `parsePrometheusMetrics` from `src/ops-ui/pages/api/metrics.ts`:
initial values `openOrders = 0`, `killSwitch = false`, empty exposures,
then one pass over the newline-split lines. -/
def parsePrometheusMetricsApi (text : String) : ApiMetrics :=
  (splitChar '\n' text.toList).foldl apiStep
    { open_orders := some ⟨0, 0⟩, kill_switch := false, exposures := [] }

/-- `parsePrometheusMetrics` from the SSE router (second half of
`src/unnamed/part_010`): same pass with the two extra fields
`dailyPnl = 0` and `accountBalance = 0`. -/
def parsePrometheusMetricsSse (text : String) : SseMetrics :=
  (splitChar '\n' text.toList).foldl sseStep
    { open_orders := some ⟨0, 0⟩, kill_switch := false, exposures := []
      daily_pnl := some ⟨0, 0⟩, account_balance := some ⟨0, 0⟩ }

/-- Split a character list at every character satisfying a predicate,
keeping empty segments. -/
def splitOnPred (p : Char → Bool) : List Char → List (List Char)
  | [] => [[]]
  | c :: cs =>
    if p c then [] :: splitOnPred p cs
    else
      match splitOnPred p cs with
      | [] => [[c]]
      | h :: t => (c :: h) :: t

/-- The whitespace-separated tokens of a line (empty segments dropped),
the reading used by the specification sentence under scrutiny. -/
def wsTokens (l : List Char) : List (List Char) :=
  (splitOnPred jsIsWs l).filter (fun t => !t.isEmpty)

/-- The claim-side predicate: the line starts with `atlas_kill_switch` and
its second whitespace-separated token parses (as `parseFloat`) to exactly 1. -/
def claimKillLine (l : List Char) : Bool :=
  jsStartsWith "atlas_kill_switch" l &&
    (match (wsTokens l)[1]? with
     | some t => jsEq (jsParseFloat t) (some jsOne)
     | none => false)

/-- The claim-side condition on a whole metrics text: some line starts with
`atlas_kill_switch` and carries the value 1 in its second token. -/
def claimC9KillPred (text : String) : Bool :=
  (splitChar '\n' text.toList).any claimKillLine

/-- A line is relevant to the kill-switch field of the parsers when it
starts with `atlas_kill_switch` and splits on single spaces into at least
two parts (otherwise the parsers leave the field untouched). -/
def killRelevantLine (l : List Char) : Bool :=
  jsStartsWith "atlas_kill_switch" l &&
    match splitChar ' ' l with
    | _ :: _ :: _ => true
    | _ => false

/-- The kill-switch value a relevant line assigns: whether its second
space-split part parses to exactly 1. -/
def killLineVal (l : List Char) : Bool :=
  match splitChar ' ' l with
  | _ :: p1 :: _ => jsEq (jsParseFloat p1) (some jsOne)
  | _ => false

/-- The kill-switch verdict of a sequence of lines: the value assigned by
the last relevant line, `false` when there is none. -/
def lastKillVerdict (ls : List (List Char)) : Bool :=
  ((ls.reverse.find? killRelevantLine).map killLineVal).getD false

/-- Prefix extraction: a verified `isPrefixOf` yields the list's head
segment. -/
theorem take_of_isPrefixOf (p l : List Char) (h : p.isPrefixOf l = true) :
    l.take p.length = p := by
  rw [ List.isPrefixOf_iff_prefix] at h
  obtain ⟨t, rfl⟩ := h
  exact List.take_left p t

/-- A line starting with `atlas_open_orders` cannot also start with
`atlas_kill_switch`: the two prefixes have equal length but differ. -/
theorem open_orders_not_kill (l : List Char)
    (h : jsStartsWith "atlas_open_orders" l = true) :
    jsStartsWith "atlas_kill_switch" l = false := by
  cases hk : jsStartsWith "atlas_kill_switch" l with
  | false => rfl
  | true =>
    exfalso
    unfold jsStartsWith at h hk
    have e1 := take_of_isPrefixOf _ _ h
    have e2 := take_of_isPrefixOf _ _ hk
    rw [show ("atlas_kill_switch".toList).length
          = ("atlas_open_orders".toList).length from rfl] at e2
    exact absurd (e1.symm.trans e2) (by decide)

/-- Per-line effect of the Ops-UI parser on the kill-switch field. -/
theorem apiStep_kill (m : ApiMetrics) (l : List Char) :
    (apiStep m l).kill_switch =
      if killRelevantLine l then killLineVal l else m.kill_switch := by
  unfold apiStep killRelevantLine killLineVal
  cases h1 : jsStartsWith "atlas_open_orders" l with
  | true =>
    rw [open_orders_not_kill l h1]
    simp only [h1, Bool.false_and, if_true, if_false, Bool.false_eq_true]
    cases hs : splitChar ' ' l with
    | nil => simp
    | cons p0 t => cases t <;> simp
  | false =>
    cases h2 : jsStartsWith "atlas_kill_switch" l with
    | true =>
      simp only [h1, h2, Bool.true_and, Bool.false_eq_true, if_false, if_true]
      cases hs : splitChar ' ' l with
      | nil => simp [hs]
      | cons p0 t => cases t <;> simp [hs]
    | false =>
      simp only [h1, h2, Bool.false_and, Bool.false_eq_true, if_false]
      cases h3 : jsStartsWith "atlas_exposure" l with
      | true =>
        simp only [h3, if_true]
        cases hm : atlasExposureMatch l with
        | none => simp [hm]
        | some g => cases g with | mk g1 g2 => simp [hm]
      | false => simp [h3]

/-- Per-line effect of the SSE parser on the kill-switch field. -/
theorem sseStep_kill (m : SseMetrics) (l : List Char) :
    (sseStep m l).kill_switch =
      if killRelevantLine l then killLineVal l else m.kill_switch := by
  unfold sseStep killRelevantLine killLineVal
  cases h1 : jsStartsWith "atlas_open_orders" l with
  | true =>
    rw [open_orders_not_kill l h1]
    simp only [h1, Bool.false_and, if_true, if_false, Bool.false_eq_true]
    cases hs : splitChar ' ' l with
    | nil => simp
    | cons p0 t => cases t <;> simp
  | false =>
    cases h2 : jsStartsWith "atlas_kill_switch" l with
    | true =>
      simp only [h1, h2, Bool.true_and, Bool.false_eq_true, if_false, if_true]
      cases hs : splitChar ' ' l with
      | nil => simp [hs]
      | cons p0 t => cases t <;> simp [hs]
    | false =>
      simp only [h1, h2, Bool.false_and, Bool.false_eq_true, if_false]
      cases h3 : jsStartsWith "atlas_exposure" l with
      | true =>
        simp only [h3, if_true]
        cases hm : atlasExposureMatch l with
        | none => simp [hm]
        | some g => cases g with | mk g1 g2 => simp [hm]
      | false =>
        simp only [h3, Bool.false_eq_true, if_false]
        cases h4 : jsStartsWith "atlas_daily_pnl" l with
        | true =>
          simp only [h4, if_true]
          cases hs : splitChar ' ' l with
          | nil => simp
          | cons p0 t => cases t <;> simp
        | false =>
          simp only [h4, Bool.false_eq_true, if_false]
          cases h5 : jsStartsWith "atlas_account_balance" l with
          | true =>
            simp only [h5, if_true]
            cases hs : splitChar ' ' l with
            | nil => simp
            | cons p0 t => cases t <;> simp
          | false => simp [h5]

/-- Folding any parser step whose kill-switch effect is governed by
`killRelevantLine`/`killLineVal` yields the last relevant line's verdict. -/
theorem foldl_kill_eq {σ : Type} (step : σ → List Char → σ) (proj : σ → Bool)
    (hstep : ∀ m l, proj (step m l) =
      if killRelevantLine l then killLineVal l else proj m) :
    ∀ (ls : List (List Char)) (m : σ),
      proj (ls.foldl step m) =
        ((ls.reverse.find? killRelevantLine).map killLineVal).getD (proj m) := by
  intro ls
  induction ls with
  | nil => intro m; rfl
  | cons l ls ih =>
    intro m
    rw [List.foldl_cons, ih, List.reverse_cons, List.find?_append]
    cases hf : ls.reverse.find? killRelevantLine with
    | some l' => simp [Option.or]
    | none =>
      cases hr : killRelevantLine l with
      | true => simp [Option.or, List.find?, hr, hstep]
      | false => simp [Option.or, List.find?, hr, hstep]

/-- C9 counterexample: the text `atlas_kill_switch 1\natlas_kill_switch 0`
contains a line starting with `atlas_kill_switch` whose second
whitespace-separated token parses to exactly 1, yet both parsers report the
kill switch as not engaged — a later `atlas_kill_switch` line overwrote the
earlier value, refuting the claimed if-and-only-if. -/
theorem kill_switch_iff_counterexample :
    claimC9KillPred "atlas_kill_switch 1\natlas_kill_switch 0" = true
    ∧ (parsePrometheusMetricsApi "atlas_kill_switch 1\natlas_kill_switch 0").kill_switch
        = false
    ∧ (parsePrometheusMetricsSse "atlas_kill_switch 1\natlas_kill_switch 0").kill_switch
        = false := by
  refine ⟨by decide, by decide, by decide⟩

/-- C9 (amended): for every Prometheus metrics text, both parsers report the
kill switch as engaged if and only if the LAST line starting with
`atlas_kill_switch` that splits on single spaces into at least two parts has
its second part parse (as `parseFloat`) to exactly 1; with no such line the
default `false` is reported. -/
theorem kill_switch_last_line_wins (text : String) :
    (parsePrometheusMetricsApi text).kill_switch
        = lastKillVerdict (splitChar '\n' text.toList)
    ∧ (parsePrometheusMetricsSse text).kill_switch
        = lastKillVerdict (splitChar '\n' text.toList) := by
  constructor
  · have h := foldl_kill_eq apiStep (fun m => m.kill_switch) apiStep_kill
      (splitChar '\n' text.toList)
      { open_orders := some ⟨0, 0⟩, kill_switch := false, exposures := [] }
    simpa [parsePrometheusMetricsApi, lastKillVerdict] using h
  · have h := foldl_kill_eq sseStep (fun m => m.kill_switch) sseStep_kill
      (splitChar '\n' text.toList)
      { open_orders := some ⟨0, 0⟩, kill_switch := false, exposures := []
        daily_pnl := some ⟨0, 0⟩, account_balance := some ⟨0, 0⟩ }
    simpa [parsePrometheusMetricsSse, lastKillVerdict] using h

/-- Projection of an SSE parser state onto the fields the Ops-UI parser
also maintains. -/
def projSse (s : SseMetrics) : ApiMetrics :=
  { open_orders := s.open_orders, kill_switch := s.kill_switch
    exposures := s.exposures }

/-- One SSE parser step agrees with one Ops-UI parser step on the shared
fields: the extra `atlas_daily_pnl` and `atlas_account_balance` branches
never touch them. -/
theorem sseStep_proj (m : SseMetrics) (l : List Char) :
    projSse (sseStep m l) = apiStep (projSse m) l := by
  unfold sseStep apiStep projSse
  cases h1 : jsStartsWith "atlas_open_orders" l with
  | true =>
    simp only [h1, if_true]
    cases hs : splitChar ' ' l with
    | nil => simp
    | cons p0 t => cases t <;> simp
  | false =>
    simp only [h1, Bool.false_eq_true, if_false]
    cases h2 : jsStartsWith "atlas_kill_switch" l with
    | true =>
      simp only [h2, if_true]
      cases hs : splitChar ' ' l with
      | nil => simp
      | cons p0 t => cases t <;> simp
    | false =>
      simp only [h2, Bool.false_eq_true, if_false]
      cases h3 : jsStartsWith "atlas_exposure" l with
      | true =>
        simp only [h3, if_true]
        cases hm : atlasExposureMatch l with
        | none => simp
        | some g => cases g with | mk g1 g2 => simp
      | false =>
        simp only [h3, Bool.false_eq_true, if_false]
        cases h4 : jsStartsWith "atlas_daily_pnl" l with
        | true =>
          simp only [h4, if_true]
          cases hs : splitChar ' ' l with
          | nil => simp
          | cons p0 t => cases t <;> simp
        | false =>
          simp only [h4, Bool.false_eq_true, if_false]
          cases h5 : jsStartsWith "atlas_account_balance" l with
          | true =>
            simp only [h5, if_true]
            cases hs : splitChar ' ' l with
            | nil => simp
            | cons p0 t => cases t <;> simp
          | false => simp [h5]

/-- The whole SSE parser fold agrees with the Ops-UI parser fold under the
projection. -/
theorem foldl_sse_proj (ls : List (List Char)) :
    ∀ m, projSse (ls.foldl sseStep m) = ls.foldl apiStep (projSse m) := by
  induction ls with
  | nil => intro m; rfl
  | cons l ls ih =>
    intro m
    rw [List.foldl_cons, List.foldl_cons, ih, sseStep_proj]

/-- C10: on every input string, the SSE router's `parsePrometheusMetrics`
and the Ops-UI metrics API's `parsePrometheusMetrics` return identical
values for their shared output fields `open_orders`, `kill_switch`, and the
per-product exposures map. -/
theorem metrics_parsers_equivalent (text : String) :
    (parsePrometheusMetricsSse text).open_orders
        = (parsePrometheusMetricsApi text).open_orders
    ∧ (parsePrometheusMetricsSse text).kill_switch
        = (parsePrometheusMetricsApi text).kill_switch
    ∧ (parsePrometheusMetricsSse text).exposures
        = (parsePrometheusMetricsApi text).exposures := by
  have h := foldl_sse_proj (splitChar '\n' text.toList)
    { open_orders := some ⟨0, 0⟩, kill_switch := false, exposures := []
      daily_pnl := some ⟨0, 0⟩, account_balance := some ⟨0, 0⟩ }
  unfold parsePrometheusMetricsSse parsePrometheusMetricsApi
  refine ⟨?_, ?_, ?_⟩
  · exact congrArg ApiMetrics.open_orders h
  · exact congrArg ApiMetrics.kill_switch h
  · exact congrArg ApiMetrics.exposures h

example : jsEq (jsParseFloat "1".toList) (some jsOne) = true := by decide
example : jsEq (jsParseFloat "1.0e0".toList) (some jsOne) = true := by decide
example : jsEq (jsParseFloat "0".toList) (some jsOne) = false := by decide
example : jsParseFloat "".toList = none := by decide
example :
    (parsePrometheusMetricsApi "atlas_kill_switch 1").kill_switch = true := by decide
example :
    (parsePrometheusMetricsApi "atlas_kill_switch 1\natlas_kill_switch 0").kill_switch
      = false := by decide

/-! ## Part II: the risk core, modelled from the specification

The Pre-Trade Gate, Risk State Store, Post-Trade Reconciler, Volatility
Estimator and Alert Coordinator are described by the specification but
their implementation files are not part of the published source tree, so
they are modelled here from the specification's words. -/

/-- Modelled from the spec: rejection reason codes of the Pre-Trade Gate
(section 4.3); the gate implementation is missing from the source tree. -/
inductive RejectReason where
  | KILL_SWITCH
  | MARKET_NOT_ALLOWED
  | NOTIONAL_CAP
  | RATE_OR_OPEN_ORDER_LIMIT
  | PRICE_OUT_OF_BAND
deriving DecidableEq, Repr

/-- Verdict of the Pre-Trade Gate: accept, or reject with a reason code. -/
inductive Verdict where
  | accept
  | reject (reason : RejectReason)
deriving DecidableEq, Repr

/-- Order side. -/
inductive Side where
  | buy
  | sell
deriving DecidableEq, Repr

/-- Modelled from the spec: OrderIntent (section 3). -/
structure OrderIntent where
  correlationId : String
  product : String
  side : Side
  size : ℚ
  limitPrice : Option ℚ
  requestedAt : ℕ
deriving DecidableEq, Repr

/-- Modelled from the spec: the configuration surface the gate reads
(section 6). -/
structure GateConfig where
  maxOrderNotional : ℚ
  allowedMarkets : List String
  maxOpenOrders : ℕ
  maxOrdersPerMinute : ℕ
  volatilityMult : ℚ
deriving Repr

/-- Modelled from the spec: the risk-state and volatility view the gate
consults — kill-switch flag, open-order count, trailing-minute submission
rate, mark price, and the configured model's volatility estimate
(`none` = Undetermined). -/
structure GateState where
  killSwitchEngaged : Bool
  openOrderCount : ℕ
  ordersLastMinute : ℕ
  markPrice : ℚ
  volEstimate : Option ℚ
deriving Repr

/-- Notional of an intent: size × price, taking the limit price when
supplied and the mark price otherwise. -/
def intentNotional (st : GateState) (it : OrderIntent) : ℚ :=
  it.size * (it.limitPrice.getD st.markPrice)

/-- Price-band check (section 4.3, check 5): skipped when no limit price is
supplied or the volatility estimate is Undetermined (warm-up policy:
"widest allowed band"); otherwise the limit price must fall within
`markPrice·(1±band)` where `band = VOLATILITY_MULT × σ`. -/
def priceBandOk (cfg : GateConfig) (st : GateState) (it : OrderIntent) : Bool :=
  match it.limitPrice, st.volEstimate with
  | some p, some sigma =>
    let band := cfg.volatilityMult * sigma
    decide (st.markPrice * (1 - band) ≤ p ∧ p ≤ st.markPrice * (1 + band))
  | _, _ => true

/-- Modelled from the spec: the Pre-Trade Gate decision function
(section 4.3), its five checks evaluated in the given strict order. -/
def preTradeGate (cfg : GateConfig) (st : GateState) (it : OrderIntent) : Verdict :=
  if st.killSwitchEngaged then .reject .KILL_SWITCH
  else if !(cfg.allowedMarkets.contains it.product) then .reject .MARKET_NOT_ALLOWED
  else if cfg.maxOrderNotional < intentNotional st it then .reject .NOTIONAL_CAP
  else if cfg.maxOpenOrders ≤ st.openOrderCount ∨
      cfg.maxOrdersPerMinute < st.ordersLastMinute then
    .reject .RATE_OR_OPEN_ORDER_LIMIT
  else if !priceBandOk cfg st it then .reject .PRICE_OUT_OF_BAND
  else .accept

/-- The gate's checks as an ordered list of (fails?, reason code) pairs:
kill switch, market allow-list, notional cap, rate/open-order limit,
price band. -/
def gateChecks (cfg : GateConfig) (st : GateState) (it : OrderIntent) :
    List (Bool × RejectReason) :=
  [ (st.killSwitchEngaged, .KILL_SWITCH),
    (!(cfg.allowedMarkets.contains it.product), .MARKET_NOT_ALLOWED),
    (decide (cfg.maxOrderNotional < intentNotional st it), .NOTIONAL_CAP),
    (decide (cfg.maxOpenOrders ≤ st.openOrderCount ∨
       cfg.maxOrdersPerMinute < st.ordersLastMinute), .RATE_OR_OPEN_ORDER_LIMIT),
    (!priceBandOk cfg st it, .PRICE_OUT_OF_BAND) ]

/-- The reason code of the first failing check; accept when none fails. -/
def firstFailing : List (Bool × RejectReason) → Verdict
  | [] => .accept
  | (true, r) :: _ => .reject r
  | (false, _) :: rest => firstFailing rest

/-- C1: the Pre-Trade Gate evaluates its checks in the fixed order
kill-switch, market allow-list, notional cap, rate/open-order limit, price
band, and returns the reason code of the first failing check; in particular
an engaged kill switch always yields `KILL_SWITCH`, and with the kill
switch off and the product allowed, `size × price > MAX_ORDER_NOTIONAL`
yields `NOTIONAL_CAP`. -/
theorem preTradeGate_first_failure_wins (cfg : GateConfig) (st : GateState)
    (it : OrderIntent) :
    preTradeGate cfg st it = firstFailing (gateChecks cfg st it)
    ∧ (st.killSwitchEngaged = true →
        preTradeGate cfg st it = .reject .KILL_SWITCH)
    ∧ (st.killSwitchEngaged = false →
        cfg.allowedMarkets.contains it.product = true →
        cfg.maxOrderNotional < intentNotional st it →
        preTradeGate cfg st it = .reject .NOTIONAL_CAP) := by
  refine ⟨?_, ?_, ?_⟩
  · cases hk : st.killSwitchEngaged with
    | true => simp [preTradeGate, gateChecks, firstFailing, hk]
    | false =>
      by_cases hm : it.product ∈ cfg.allowedMarkets
      · by_cases hn : cfg.maxOrderNotional < intentNotional st it
        · simp [preTradeGate, gateChecks, firstFailing, hk, hm, hn]
        · by_cases hr : cfg.maxOpenOrders ≤ st.openOrderCount ∨
              cfg.maxOrdersPerMinute < st.ordersLastMinute
          · rcases hr with ha | hb2
            · simp [preTradeGate, gateChecks, firstFailing, hk, hm, hn, ha]
            · simp [preTradeGate, gateChecks, firstFailing, hk, hm, hn, hb2]
          · obtain ⟨ha, hb2⟩ := not_or.mp hr
            cases hb : priceBandOk cfg st it with
            | true =>
              simp [preTradeGate, gateChecks, firstFailing, hk, hm, hn, ha, hb2, hb]
            | false =>
              simp [preTradeGate, gateChecks, firstFailing, hk, hm, hn, ha, hb2, hb]
      · simp [preTradeGate, gateChecks, firstFailing, hk, hm]
  · intro hk
    simp [preTradeGate, hk]
  · intro hk hm hn
    have hm' : it.product ∈ cfg.allowedMarkets := by simpa using hm
    simp [preTradeGate, hk, hm', hn]

/-- Witness for C1 at the spec's own example: `MAX_ORDER_NOTIONAL = 1000`
and an intent with `size = 10`, `price = 150` is rejected with
`NOTIONAL_CAP`. -/
theorem preTradeGate_notional_cap_example :
    preTradeGate
      { maxOrderNotional := 1000, allowedMarkets := ["BTC-USD"]
        maxOpenOrders := 10, maxOrdersPerMinute := 30, volatilityMult := 2 }
      { killSwitchEngaged := false, openOrderCount := 0, ordersLastMinute := 0
        markPrice := 150, volEstimate := none }
      { correlationId := "c1", product := "BTC-USD", side := .buy, size := 10
        limitPrice := some 150, requestedAt := 0 }
      = .reject .NOTIONAL_CAP :=
  (preTradeGate_first_failure_wins _ _ _).2.2 rfl (by decide)
    (by norm_num [intentNotional])

/-- Modelled from the spec: a Fill event (section 3); `fillId` is the
deduplication key and a Fill may be delivered more than once. -/
structure Fill where
  fillId : String
  product : String
  side : Side
  size : ℚ
  price : ℚ
  timestamp : ℕ
deriving DecidableEq, Repr

/-- Signed position delta of a fill. -/
def signedSize (f : Fill) : ℚ :=
  match f.side with
  | .buy => f.size
  | .sell => -f.size

/-- Kill-switch reason codes. -/
inductive KillReason where
  | NONE
  | DAILY_LOSS
  | DRAWDOWN
deriving DecidableEq, Repr

/-- Modelled from the spec: KillSwitchState (section 3). -/
structure KillSwitchState where
  engaged : Bool
  reason : KillReason
  engagedAt : ℕ
deriving DecidableEq, Repr

/-- Modelled from the spec: DailyPnL (section 3), realized and unrealized
components. -/
structure DailyPnL where
  realized : ℚ
  unrealized : ℚ
deriving DecidableEq, Repr

/-- Cumulative daily PnL: realized plus unrealized. -/
def cumulativePnl (p : DailyPnL) : ℚ := p.realized + p.unrealized

/-- Modelled from the spec: the Risk State Store (sections 3 and 4.2) —
applied fill-id markers, per-product exposure records (signed size,
notional), per-product average cost, daily PnL, kill switch, and the peak
equity consulted by the drawdown check. -/
structure RiskStoreState where
  appliedFillIds : List String
  exposures : List (String × ℚ × ℚ)
  avgCost : List (String × ℚ)
  pnl : DailyPnL
  kill : KillSwitchState
  peakEquity : ℚ
deriving DecidableEq, Repr

/-- Exposure record of a product: (signed size, notional), zero when
absent. -/
def getExposure (st : RiskStoreState) (product : String) : ℚ × ℚ :=
  ((st.exposures.find? (fun e => e.1 == product)).map (fun e => e.2)).getD (0, 0)

/-- Add exposure deltas to a product's record in place, creating the record
when absent. -/
def expUpsert (m : List (String × ℚ × ℚ)) (product : String)
    (dSize dNotional : ℚ) : List (String × ℚ × ℚ) :=
  match m with
  | [] => [(product, dSize, dNotional)]
  | (k, s, n) :: t =>
    if k == product then (k, s + dSize, n + dNotional) :: t
    else (k, s, n) :: expUpsert t product dSize dNotional

/-- Modelled from the spec: `incrementExposure` (section 4.2), an atomic
read-and-add on the product's exposure record. -/
def incrementExposure (st : RiskStoreState) (product : String)
    (dSize dNotional : ℚ) : RiskStoreState :=
  { st with exposures := expUpsert st.exposures product dSize dNotional }

/-- Modelled from the spec: `applyFillOnce` (section 4.2) — if the fill-id
marker already exists, the effect is not reapplied and the call reports
`applied = false`; otherwise the exposure effect is executed and the marker
stored. -/
def applyFillOnce (st : RiskStoreState) (f : Fill) : RiskStoreState × Bool :=
  if st.appliedFillIds.contains f.fillId then (st, false)
  else
    ({ incrementExposure st f.product (signedSize f) (signedSize f * f.price) with
        appliedFillIds := f.fillId :: st.appliedFillIds }, true)

/-- Apply a sequence of fills through `applyFillOnce`. -/
def applyFills (st : RiskStoreState) (fills : List Fill) : RiskStoreState :=
  fills.foldl (fun s f => (applyFillOnce s f).1) st

/-- The same fill sequence with only the first occurrence of the given fill
id retained: later occurrences are dropped, all other fills untouched. -/
def keepFirstOcc (fid : String) : List Fill → List Fill
  | [] => []
  | f :: rest =>
    if f.fillId == fid then f :: rest.filter (fun g => g.fillId != fid)
    else f :: keepFirstOcc fid rest

/-- The applied-marker set only grows under `applyFillOnce`. -/
theorem applied_mono (st : RiskStoreState) (f : Fill) (fid : String)
    (h : st.appliedFillIds.contains fid = true) :
    ((applyFillOnce st f).1).appliedFillIds.contains fid = true := by
  unfold applyFillOnce
  split
  · exact h
  · simpa [incrementExposure] using Or.inr (by simpa using h)

/-- Dropping every later occurrence of an already-applied fill id does not
change the result of applying a sequence. -/
theorem applyFills_filter_applied (fid : String) :
    ∀ (l : List Fill) (st : RiskStoreState),
      st.appliedFillIds.contains fid = true →
      applyFills st (l.filter (fun g => g.fillId != fid)) = applyFills st l := by
  intro l
  induction l with
  | nil => intro st _; rfl
  | cons f l ih =>
    intro st h
    by_cases hf : f.fillId == fid
    · have hfe : f.fillId = fid := by simpa using hf
      have hno : applyFillOnce st f = (st, false) := by
        unfold applyFillOnce
        rw [hfe, if_pos h]
      have hcond : (f.fillId != fid) = false := by simp [bne, hf]
      rw [List.filter_cons, if_neg (by simp [hcond])]
      rw [show applyFills st (f :: l) = applyFills (applyFillOnce st f).1 l from rfl,
        hno]
      exact ih st h
    · have hkeep : (f.fillId != fid) = true := by simpa using hf
      rw [List.filter_cons, if_pos (by simpa using hkeep)]
      rw [show applyFills st (f :: l.filter (fun g => g.fillId != fid))
            = applyFills (applyFillOnce st f).1 (l.filter (fun g => g.fillId != fid))
          from rfl,
        show applyFills st (f :: l) = applyFills (applyFillOnce st f).1 l from rfl]
      exact ih _ (applied_mono st f fid h)

/-- Applying a sequence equals applying the sequence with only the first
occurrence of any given fill id retained. -/
theorem applyFills_keepFirstOcc (fid : String) :
    ∀ (l : List Fill) (st : RiskStoreState),
      applyFills st (keepFirstOcc fid l) = applyFills st l := by
  intro l
  induction l with
  | nil => intro st; rfl
  | cons f l ih =>
    intro st
    unfold keepFirstOcc
    by_cases hf : f.fillId == fid
    · simp only [hf, if_true]
      have hfe : f.fillId = fid := by simpa using hf
      rw [show applyFills st (f :: l.filter (fun g => g.fillId != fid))
            = applyFills (applyFillOnce st f).1 (l.filter (fun g => g.fillId != fid))
          from rfl,
        show applyFills st (f :: l) = applyFills (applyFillOnce st f).1 l from rfl]
      have hmem : ((applyFillOnce st f).1).appliedFillIds.contains fid = true := by
        unfold applyFillOnce
        split
        · next hc => simpa [hfe] using hc
        · simp [incrementExposure, hfe]
      exact applyFills_filter_applied fid l _ hmem
    · simp only [hf, Bool.false_eq_true, if_false]
      rw [show applyFills st (f :: keepFirstOcc fid l)
            = applyFills (applyFillOnce st f).1 (keepFirstOcc fid l) from rfl,
        show applyFills st (f :: l) = applyFills (applyFillOnce st f).1 l from rfl]
      exact ih _

/-- C2: for every fill sequence applied through `applyFillOnce` in which
some fill id occurs more than once, the net exposure change of the whole
sequence equals that of the same sequence with only the first occurrence of
that fill id retained — repeated application of a fill with the same fill
id has no additional effect on exposure. -/
theorem applyFillOnce_idempotent_exposure (st : RiskStoreState)
    (fills : List Fill) (fid : String)
    (_h : 2 ≤ (fills.filter (fun f => f.fillId == fid)).length) :
    (applyFills st fills).exposures
      = (applyFills st (keepFirstOcc fid fills)).exposures := by
  rw [applyFills_keepFirstOcc]

/-- Witness for C2: a three-fill sequence in which fill id `f1` occurs
twice produces the same exposures as with the duplicate dropped. -/
theorem applyFillOnce_idempotent_example :
    (applyFills
        ⟨[], [], [], ⟨0, 0⟩, ⟨false, .NONE, 0⟩, 0⟩
        [⟨"f1", "BTC-USD", .buy, 1, 100, 1⟩,
         ⟨"f1", "BTC-USD", .buy, 1, 100, 2⟩,
         ⟨"f2", "BTC-USD", .sell, 2, 110, 3⟩]).exposures
      = (applyFills
          ⟨[], [], [], ⟨0, 0⟩, ⟨false, .NONE, 0⟩, 0⟩
          (keepFirstOcc "f1"
            [⟨"f1", "BTC-USD", .buy, 1, 100, 1⟩,
             ⟨"f1", "BTC-USD", .buy, 1, 100, 2⟩,
             ⟨"f2", "BTC-USD", .sell, 2, 110, 3⟩])).exposures :=
  applyFillOnce_idempotent_exposure _ _ "f1" (by decide)

/-- Risk events emitted by the Post-Trade Reconciler after successful state
mutations (never on duplicates). -/
inductive RiskEvent where
  | exposureUpdate (product : String) (size notional : ℚ)
  | pnlUpdate (dailyPnl : ℚ) (killSwitch : Bool)
deriving DecidableEq, Repr

/-- Modelled from the spec: reconciler thresholds (section 4.4) and the
initial equity from which drawdown is measured. -/
structure ReconcilerConfig where
  maxDailyLoss : ℚ
  drawdownLimit : ℚ
  initialEquity : ℚ
deriving Repr

/-- Average cost of a product (zero when absent). -/
def getAvgCost (st : RiskStoreState) (product : String) : ℚ :=
  ((st.avgCost.find? (fun e => e.1 == product)).map (fun e => e.2)).getD 0

/-- Set a product's average cost in place, creating the entry when absent. -/
def setAvgCost (m : List (String × ℚ)) (product : String) (v : ℚ) :
    List (String × ℚ) :=
  match m with
  | [] => [(product, v)]
  | (k, x) :: t => if k == product then (k, v) :: t else (k, x) :: setAvgCost t product v

/-- Modelled from the spec: `setKillSwitch(true, reason)` as the Reconciler
uses it — engagement only, never clearing (section 4.4). -/
def engageKillSwitch (st : RiskStoreState) (r : KillReason) (ts : ℕ) :
    RiskStoreState :=
  { st with kill := { engaged := true, reason := r, engagedAt := ts } }

/-- Average cost of the fill's product after the fill (section 4.4
bookkeeping): blended on position-increasing fills, reset to the fill price
when the position crosses through zero, unchanged on plain reductions. -/
def costAfterFill (st : RiskStoreState) (f : Fill) : ℚ :=
  let pos0 := (getExposure st f.product).1
  let cost0 := getAvgCost st f.product
  let s := signedSize f
  if 0 ≤ pos0 * s then
    if |pos0| + |s| = 0 then cost0
    else (|pos0| * cost0 + |s| * f.price) / (|pos0| + |s|)
  else if |pos0| < |s| then f.price
  else cost0

/-- Daily PnL after an applied fill (section 4.4): realized PnL takes the
position-reducing part's gain against average cost; unrealized PnL is
recomputed as `position × (markPrice − averageCost)`. -/
def pnlAfterFill (st : RiskStoreState) (f : Fill) (markPrice : ℚ) : DailyPnL :=
  let pos0 := (getExposure st f.product).1
  let cost0 := getAvgCost st f.product
  let s := signedSize f
  let realizedDelta :=
    if pos0 * s < 0 then
      (min |s| |pos0|) * (f.price - cost0) * (if 0 < pos0 then 1 else -1)
    else 0
  { realized := st.pnl.realized + realizedDelta
    unrealized := (pos0 + s) * (markPrice - costAfterFill st f) }

/-- Peak equity after an applied fill: the running maximum of
`initialEquity + cumulative daily PnL`. -/
def peakAfterFill (cfg : ReconcilerConfig) (st : RiskStoreState) (f : Fill)
    (markPrice : ℚ) : ℚ :=
  max st.peakEquity (cfg.initialEquity + cumulativePnl (pnlAfterFill st f markPrice))

/-- The daily-loss threshold condition the Reconciler evaluates after an
applied fill: cumulative daily PnL at or below the configured max loss. -/
def dailyLossHit (cfg : ReconcilerConfig) (st : RiskStoreState) (f : Fill)
    (markPrice : ℚ) : Prop :=
  cumulativePnl (pnlAfterFill st f markPrice) ≤ cfg.maxDailyLoss

/-- The drawdown threshold condition the Reconciler evaluates after an
applied fill: drawdown from peak equity beyond the configured limit. -/
def drawdownHit (cfg : ReconcilerConfig) (st : RiskStoreState) (f : Fill)
    (markPrice : ℚ) : Prop :=
  cfg.drawdownLimit < peakAfterFill cfg st f markPrice
    - (cfg.initialEquity + cumulativePnl (pnlAfterFill st f markPrice))

instance (cfg : ReconcilerConfig) (st : RiskStoreState) (f : Fill) (m : ℚ) :
    Decidable (dailyLossHit cfg st f m) := by
  unfold dailyLossHit; infer_instance

instance (cfg : ReconcilerConfig) (st : RiskStoreState) (f : Fill) (m : ℚ) :
    Decidable (drawdownHit cfg st f m) := by
  unfold drawdownHit; infer_instance

/-- Modelled from the spec: the Post-Trade Reconciler step (section 4.4).
On a duplicate it stops silently; on an applied fill it carries the
exposure increment from `applyFillOnce`, updates average cost and daily
PnL, tracks peak equity, evaluates the daily-loss and then the drawdown
threshold (each engaging the kill switch), and emits the
`ExposureUpdate`/`PnLUpdate` events. -/
def processFill (cfg : ReconcilerConfig) (st : RiskStoreState) (f : Fill)
    (markPrice : ℚ) : RiskStoreState × List RiskEvent :=
  match applyFillOnce st f with
  | (_, false) => (st, [])
  | (st1, true) =>
    let st2 := { st1 with
      avgCost := setAvgCost st.avgCost f.product (costAfterFill st f)
      pnl := pnlAfterFill st f markPrice
      peakEquity := peakAfterFill cfg st f markPrice }
    let st3 :=
      if dailyLossHit cfg st f markPrice then
        engageKillSwitch st2 .DAILY_LOSS f.timestamp
      else st2
    let st4 :=
      if drawdownHit cfg st f markPrice then
        engageKillSwitch st3 .DRAWDOWN f.timestamp
      else st3
    (st4,
      [ .exposureUpdate f.product (getExposure st4 f.product).1
          (getExposure st4 f.product).2,
        .pnlUpdate (cumulativePnl st4.pnl) st4.kill.engaged ])

/-- A successfully applied fill leaves the kill switch (and the PnL fields
it is judged by) untouched inside `applyFillOnce`. -/
theorem applyFillOnce_true_kill (st : RiskStoreState) (f : Fill)
    (st1 : RiskStoreState) (h : applyFillOnce st f = (st1, true)) :
    st1.kill = st.kill := by
  unfold applyFillOnce at h
  split at h
  · exact absurd (congrArg Prod.snd h) (by simp)
  · have := congrArg Prod.fst h
    simp only at this
    rw [← this]
    rfl

/-- C3: if processing a Fill brings cumulative daily PnL to or below the
configured max-loss threshold, the Reconciler engages the kill switch with
reason `DAILY_LOSS`; no reconciler step ever disengages an engaged kill
switch; and while the kill switch is engaged the Pre-Trade Gate rejects
every OrderIntent, for any product, with `KILL_SWITCH`. -/
theorem reconciler_daily_loss_engages_kill (cfg : ReconcilerConfig)
    (st : RiskStoreState) (f : Fill) (markPrice : ℚ) :
    (st.kill.engaged = true →
      (processFill cfg st f markPrice).1.kill.engaged = true)
    ∧ ((applyFillOnce st f).2 = true →
        dailyLossHit cfg st f markPrice →
        ¬ drawdownHit cfg st f markPrice →
        (processFill cfg st f markPrice).1.kill.engaged = true
        ∧ (processFill cfg st f markPrice).1.kill.reason = .DAILY_LOSS)
    ∧ ((processFill cfg st f markPrice).1.kill.engaged = true →
        ∀ (gcfg : GateConfig) (gst : GateState) (it : OrderIntent),
          gst.killSwitchEngaged = (processFill cfg st f markPrice).1.kill.engaged →
          preTradeGate gcfg gst it = .reject .KILL_SWITCH) := by
  refine ⟨?_, ?_, ?_⟩
  · intro hk
    rcases happ : applyFillOnce st f with ⟨st1, b⟩
    cases b with
    | false => simp [processFill, happ, hk]
    | true =>
      have hkill := applyFillOnce_true_kill st f st1 happ
      unfold processFill
      rw [happ]
      by_cases hd : dailyLossHit cfg st f markPrice <;>
        by_cases hdd : drawdownHit cfg st f markPrice <;>
          simp [hd, hdd, engageKillSwitch, hkill, hk]
  · intro happ2 hd hdd
    rcases happ : applyFillOnce st f with ⟨st1, b⟩
    cases b with
    | false => rw [happ] at happ2; exact absurd happ2 (by simp)
    | true =>
      unfold processFill
      rw [happ]
      simp [hd, hdd, engageKillSwitch]
  · intro hk gcfg gst it hgst
    rw [hk] at hgst
    simp [preTradeGate, hgst]

/-- Witness for C3: a sell fill at a loss takes cumulative PnL through a
−5000 max-loss threshold, the kill switch engages with `DAILY_LOSS`, and a
subsequent intent (for a different product) is rejected with
`KILL_SWITCH`. -/
theorem reconciler_daily_loss_example :
    (processFill ⟨-5000, 100000, 0⟩
        ⟨[], [("BTC-USD", 100, 10000)], [("BTC-USD", 100)], ⟨0, 0⟩,
          ⟨false, .NONE, 0⟩, 0⟩
        ⟨"f9", "BTC-USD", .sell, 100, 40, 7⟩ 40).1.kill.engaged = true
    ∧ (processFill ⟨-5000, 100000, 0⟩
        ⟨[], [("BTC-USD", 100, 10000)], [("BTC-USD", 100)], ⟨0, 0⟩,
          ⟨false, .NONE, 0⟩, 0⟩
        ⟨"f9", "BTC-USD", .sell, 100, 40, 7⟩ 40).1.kill.reason = .DAILY_LOSS := by
  refine (reconciler_daily_loss_engages_kill _ _ _ _).2.1 ?_ ?_ ?_
  · norm_num [applyFillOnce]
  · norm_num [dailyLossHit, pnlAfterFill, costAfterFill, getExposure, getAvgCost,
      cumulativePnl, signedSize]
  · norm_num [drawdownHit, peakAfterFill, pnlAfterFill, costAfterFill, getExposure,
      getAvgCost, cumulativePnl, signedSize]

/-- C4: a fill delivered again after having been applied is recognized as a
duplicate — `applyFillOnce` reports `applied = false` and leaves the store
unchanged, and the Reconciler's step re-executes no balance effect and
emits no event. -/
theorem duplicate_fill_silent (cfg : ReconcilerConfig) (st : RiskStoreState)
    (f : Fill) (markPrice : ℚ)
    (h : st.appliedFillIds.contains f.fillId = true) :
    applyFillOnce st f = (st, false)
    ∧ processFill cfg st f markPrice = (st, []) := by
  have h1 : applyFillOnce st f = (st, false) := by
    unfold applyFillOnce
    rw [if_pos h]
  refine ⟨h1, ?_⟩
  unfold processFill
  rw [h1]

/-- Witness for C4: redelivering an already-applied fill id reports
`applied = false`, leaves the store unchanged and emits nothing. -/
theorem duplicate_fill_silent_example :
    applyFillOnce
        ⟨["f1"], [("BTC-USD", 1, 100)], [], ⟨0, 0⟩, ⟨false, .NONE, 0⟩, 0⟩
        ⟨"f1", "BTC-USD", .buy, 1, 100, 2⟩
      = (⟨["f1"], [("BTC-USD", 1, 100)], [], ⟨0, 0⟩, ⟨false, .NONE, 0⟩, 0⟩, false)
    ∧ processFill ⟨-5000, 10000, 0⟩
        ⟨["f1"], [("BTC-USD", 1, 100)], [], ⟨0, 0⟩, ⟨false, .NONE, 0⟩, 0⟩
        ⟨"f1", "BTC-USD", .buy, 1, 100, 2⟩ 100
      = (⟨["f1"], [("BTC-USD", 1, 100)], [], ⟨0, 0⟩, ⟨false, .NONE, 0⟩, 0⟩, []) :=
  duplicate_fill_silent _ _ _ _ (by decide)

/-- Arithmetic mean of a list of rationals (zero on the empty list). -/
def sampleMean (l : List ℚ) : ℚ := l.sum / l.length

/-- Sample variance of a list of rationals (zero when fewer than two
entries). -/
def sampleVariance (l : List ℚ) : ℚ :=
  if l.length ≤ 1 then 0
  else ((l.map (fun x => (x - sampleMean l) ^ 2)).sum) / ((l.length : ℚ) - 1)

/-- Modelled from the spec: the STD estimate over the last `w` return
samples (section 4.1) — `Undetermined` (`none`) until `w` samples exist.
The determined value carries σ² (the sample variance), keeping the model in
exact rationals; determinedness, the subject of the claim, is unaffected. -/
def estimateStd (w : ℕ) (samples : List ℚ) : Option ℚ :=
  if samples.length < w then none
  else some (sampleVariance (samples.take w))

/-- Modelled from the spec: the ATR estimate (section 4.1) — mean of
absolute percentage changes over a window of `w` samples, with the same
warm-up rule as STD. -/
def estimateAtr (w : ℕ) (samples : List ℚ) : Option ℚ :=
  if samples.length < w then none
  else some (((samples.take w).map (fun r => |r|)).sum / (w : ℚ))

/-- C6: for the STD and ATR models, the estimate is Undetermined while
fewer than `window` samples have been observed, and determined (a value is
returned) for every sample count from exactly the window size onward. -/
theorem std_atr_warmup (w : ℕ) (samples : List ℚ) :
    (samples.length < w →
      estimateStd w samples = none ∧ estimateAtr w samples = none)
    ∧ (w ≤ samples.length →
      (∃ v, estimateStd w samples = some v)
      ∧ (∃ v, estimateAtr w samples = some v)) := by
  constructor
  · intro h
    exact ⟨by simp [estimateStd, h], by simp [estimateAtr, h]⟩
  · intro h
    have h' : ¬ samples.length < w := not_lt.mpr h
    exact ⟨⟨sampleVariance (samples.take w), by simp [estimateStd, h']⟩,
      ⟨((samples.take w).map (fun r => |r|)).sum / (w : ℚ),
        by simp [estimateAtr, h']⟩⟩

/-- Witness for C6: with window 3, two samples are Undetermined and three
samples are determined, for both STD and ATR. -/
theorem std_atr_warmup_example :
    (estimateStd 3 [1/100, 2/100] = none ∧ estimateAtr 3 [1/100, 2/100] = none)
    ∧ ((∃ v, estimateStd 3 [1/100, 2/100, 3/100] = some v)
        ∧ (∃ v, estimateAtr 3 [1/100, 2/100, 3/100] = some v)) :=
  ⟨(std_atr_warmup 3 [1/100, 2/100]).1 (by decide),
   (std_atr_warmup 3 [1/100, 2/100, 3/100]).2 (by decide)⟩

/-- Modelled from the spec: one EWMA update,
`σ²_t = α·r_t² + (1−α)·σ²_{t−1}` (section 4.1). -/
def ewmaStep (a s2 r : ℚ) : ℚ := a * r ^ 2 + (1 - a) * s2

/-- Modelled from the spec: the EWMA variance over a return stream (oldest
first), seeded from the first observed return; `none` (Undetermined) only
before the first sample. -/
def ewmaVarOf (a : ℚ) : List ℚ → Option ℚ
  | [] => none
  | r0 :: rest => some (rest.foldl (fun s r => ewmaStep a s r) (r0 ^ 2))

/-- EWMA variance after `n` samples of the constant return stream `r`
(zero before the first sample). -/
def ewmaConstSeq (a r : ℚ) (n : ℕ) : ℚ :=
  (ewmaVarOf a (List.replicate n r)).getD 0

/-- Folding the EWMA update over a constant stream keeps the variance at
`r²`. -/
theorem ewma_const_fold (a r : ℚ) :
    ∀ k : ℕ, (List.replicate k r).foldl (fun s x => ewmaStep a s x) (r ^ 2) = r ^ 2 := by
  intro k
  induction k with
  | zero => rfl
  | succ k ih =>
    rw [List.replicate_succ, List.foldl_cons,
      show ewmaStep a (r ^ 2) r = r ^ 2 by unfold ewmaStep; ring]
    exact ih

/-- C7: for the EWMA model with any α ∈ (0,1) fed a constant return stream
`r`, the variance sequence seeded from the first observed return is
Undetermined only before the first sample, equals `r²` from the first
sample on, and therefore converges to `r²` as the number of samples tends
to infinity. -/
theorem ewma_constant_stream_converges (a r : ℚ) (h0 : 0 < a) (h1 : a < 1) :
    ewmaVarOf a [] = none
    ∧ (∀ n, 1 ≤ n → ewmaConstSeq a r n = r ^ 2)
    ∧ Filter.Tendsto (fun n => ((ewmaConstSeq a r n : ℚ) : ℝ)) Filter.atTop
        (nhds (((r : ℚ) : ℝ) ^ 2)) := by
  have hconst : ∀ n, 1 ≤ n → ewmaConstSeq a r n = r ^ 2 := by
    intro n hn
    match n, hn with
    | (k + 1), _ =>
      unfold ewmaConstSeq
      rw [List.replicate_succ]
      show (some ((List.replicate k r).foldl (fun s x => ewmaStep a s x) (r ^ 2))).getD 0
          = r ^ 2
      rw [Option.getD_some, ewma_const_fold]
  refine ⟨rfl, hconst, ?_⟩
  have hev : (fun _ : ℕ => (((r : ℚ) : ℝ)) ^ 2)
      =ᶠ[Filter.atTop] fun n => ((ewmaConstSeq a r n : ℚ) : ℝ) := by
    filter_upwards [Filter.eventually_ge_atTop 1] with n hn
    rw [hconst n hn]
    push_cast
    ring
  exact Filter.Tendsto.congr' hev tendsto_const_nhds

/-- Witness for C7 at α = 0.94: one sample of the constant stream `r = 2`
already carries variance `r² = 4`. -/
theorem ewma_constant_stream_example :
    ewmaConstSeq (47/50) 2 1 = 2 ^ 2 :=
  (ewma_constant_stream_converges (47/50) 2 (by norm_num) (by norm_num)).2.1 1
    (by norm_num)

/-- Modelled from the spec: GARCH(1,1) parameters (ω, α, β). -/
structure GarchParams where
  omega : ℚ
  alpha : ℚ
  beta : ℚ
deriving DecidableEq, Repr

/-- The stationarity/positivity constraints on GARCH parameters
(section 4.1): ω > 0, α ≥ 0, β ≥ 0, α + β < 1. -/
def validGarchParams (p : GarchParams) : Prop :=
  0 < p.omega ∧ 0 ≤ p.alpha ∧ 0 ≤ p.beta ∧ p.alpha + p.beta < 1

instance (p : GarchParams) : Decidable (validGarchParams p) := by
  unfold validGarchParams
  infer_instance

/-- Modelled from the spec: per-product GARCH estimator state — current
parameter set, last variance estimate, observed return series (most recent
first). -/
structure GarchState where
  params : GarchParams
  lastVar : ℚ
  returns : List ℚ
deriving DecidableEq, Repr

/-- Clamp α and β at zero (re-clamping after every refit, section 4.1). -/
def clampGarch (p : GarchParams) : GarchParams :=
  ⟨p.omega, max p.alpha 0, max p.beta 0⟩

/-- Modelled from the spec: the method-of-moments candidate fit — fixed
recency weights and ω chosen so the long-run variance `ω/(1−α−β)` matches
the sample variance; `none` models a failed update (too few samples, or
numeric overflow/NaN in the source). -/
def garchCandidate (returns : List ℚ) : Option GarchParams :=
  if returns.length < 2 then none
  else
    let v := sampleVariance returns
    let a : ℚ := 1/10
    let b : ℚ := 17/20
    some ⟨v * (1 - a - b), a, b⟩

/-- Modelled from the spec: a refit — clamp the candidate and adopt it only
when it satisfies the constraints, otherwise fall back to the previous
valid parameter set; a failed update (`none`) also keeps the previous
state. -/
def garchRefit (st : GarchState) : GarchState :=
  match garchCandidate st.returns with
  | none => st
  | some c =>
    let c' := clampGarch c
    if validGarchParams c' then { st with params := c' } else st

/-- Modelled from the spec: the GARCH one-step forecast
`σ²_{t+1} = ω + α·r_t² + β·σ²_t` (section 4.1). -/
def garchForecast (p : GarchParams) (r s2 : ℚ) : ℚ :=
  p.omega + p.alpha * r ^ 2 + p.beta * s2

/-- Modelled from the spec: observing a return — append it, update the
variance forecast, refit (with clamping and fallback). -/
def garchObserve (st : GarchState) (r : ℚ) : GarchState :=
  garchRefit { st with
    returns := r :: st.returns
    lastVar := garchForecast st.params r st.lastVar }

/-- A refit never leaves the valid-parameter region. -/
theorem garchRefit_valid (st : GarchState) (h : validGarchParams st.params) :
    validGarchParams (garchRefit st).params := by
  unfold garchRefit
  cases hc : garchCandidate st.returns with
  | none => exact h
  | some c =>
    by_cases hv : validGarchParams (clampGarch c)
    · simpa [hv] using hv
    · simpa [hv] using h

/-- Observing a return preserves parameter validity. -/
theorem garchObserve_valid (st : GarchState) (h : validGarchParams st.params)
    (r : ℚ) : validGarchParams (garchObserve st r).params :=
  garchRefit_valid _ h

/-- C5: starting from a valid parameter set, the GARCH estimator's
parameters satisfy ω > 0, α ≥ 0, β ≥ 0, α + β < 1 after every refit along
any observation sequence; a failed update (`none` candidate, the model of
numeric overflow/NaN) leaves the previous parameters in place; and a
candidate that still violates the constraints after clamping leaves the
whole previous state (parameters and estimate) in place. -/
theorem garch_params_always_valid (st : GarchState)
    (h : validGarchParams st.params) (obs : List ℚ) :
    validGarchParams ((obs.foldl garchObserve st).params)
    ∧ (garchCandidate st.returns = none → (garchRefit st).params = st.params)
    ∧ (∀ c, garchCandidate st.returns = some c →
        ¬ validGarchParams (clampGarch c) → garchRefit st = st) := by
  refine ⟨?_, ?_, ?_⟩
  · induction obs generalizing st with
    | nil => exact h
    | cons r obs ih =>
      rw [List.foldl_cons]
      exact ih _ (garchObserve_valid st h r)
  · intro hc
    unfold garchRefit
    rw [hc]
  · intro c hc hv
    unfold garchRefit
    rw [hc]
    simp [hv]

/-- Witness for C5: a valid initial parameter set stays valid across a
two-observation sequence, and the fallback conjuncts apply to the empty
return series (whose candidate is `none`). -/
theorem garch_params_valid_example :
    validGarchParams
        (([1/100, -1/50] : List ℚ).foldl garchObserve
          ⟨⟨1/100, 1/10, 4/5⟩, 1/100, []⟩).params
    ∧ (garchCandidate ([] : List ℚ) = none →
        (garchRefit ⟨⟨1/100, 1/10, 4/5⟩, 1/100, []⟩).params = ⟨1/100, 1/10, 4/5⟩)
    ∧ (∀ c, garchCandidate ([] : List ℚ) = some c →
        ¬ validGarchParams (clampGarch c) →
        garchRefit ⟨⟨1/100, 1/10, 4/5⟩, 1/100, []⟩
          = ⟨⟨1/100, 1/10, 4/5⟩, 1/100, []⟩) :=
  garch_params_always_valid ⟨⟨1/100, 1/10, 4/5⟩, 1/100, []⟩
    ⟨by norm_num, by norm_num, by norm_num, by norm_num⟩ [1/100, -1/50]

/-- Modelled from the spec: the Alert Coordinator's deduplication cache —
alert texts with the time they were last delivered (section 4.6). -/
structure AlertState where
  cache : List (String × ℚ)
deriving DecidableEq, Repr

/-- Modelled from the spec: handling one alert — an identical text already
delivered within the TTL window is suppressed; otherwise the alert is
delivered and recorded. -/
def handleAlert (ttl : ℚ) (st : AlertState) (now : ℚ) (text : String) :
    AlertState × Bool :=
  if st.cache.any (fun e => e.1 == text && decide (now - e.2 < ttl)) then
    (st, false)
  else ({ cache := (text, now) :: st.cache }, true)

/-- Process a list of (time, text) alerts, counting deliveries. -/
def processAlerts (ttl : ℚ) (st : AlertState) :
    List (ℚ × String) → AlertState × ℕ
  | [] => (st, 0)
  | (t, x) :: rest =>
    let r1 := handleAlert ttl st t x
    let r2 := processAlerts ttl r1.1 rest
    (r2.1, (if r1.2 then 1 else 0) + r2.2)

/-- C8: two identical alert texts arriving within the deduplication TTL
window of each other produce exactly one delivered notification — the
second arrival is suppressed by the cache. -/
theorem alert_dedup_single_delivery (ttl t1 t2 : ℚ) (text : String)
    (h1 : t1 ≤ t2) (h2 : t2 - t1 < ttl) :
    (processAlerts ttl ⟨[]⟩ [(t1, text), (t2, text)]).2 = 1 := by
  have hfirst : handleAlert ttl ⟨[]⟩ t1 text = (⟨[(text, t1)]⟩, true) := by
    unfold handleAlert
    simp
  have hsecond : handleAlert ttl ⟨[(text, t1)]⟩ t2 text
      = (⟨[(text, t1)]⟩, false) := by
    unfold handleAlert
    rw [if_pos]
    simp [h2]
  simp [processAlerts, hfirst, hsecond]

/-- Witness for C8: with the default 60-second TTL, identical texts at
times 0 and 30 yield exactly one delivery. -/
theorem alert_dedup_example :
    (processAlerts 60 ⟨[]⟩ [(0, "kill switch engaged"), (30, "kill switch engaged")]).2
      = 1 :=
  alert_dedup_single_delivery 60 0 30 "kill switch engaged" (by norm_num)
    (by norm_num)
